import Mathlib

/-!
Shallow embedding of the `fetchios` HTTP client facade, translated from
`src/fetchiosDropReplacement.ts` and `src/helpers.ts`.

Modelling conventions:
- JavaScript values (request bodies, parsed JSON response bodies) are the
  inductive `JsValue`; the JS value `undefined` is `JsValue.undef`.
- JS objects are ordered association lists of own enumerable properties.
- JS strings are Lean `String`s; the raw index/slice operations used by the
  source are modelled through `.data` (`jsLastChar`, `jsDropLast`, ...).
- Platform primitives (`JSON.parse`) are passed in as an explicit function
  parameter; `JSON.stringify` and `URLSearchParams` are modelled concretely.
- Promise rejection / `throw` is the `Except` error channel.
-/

/-! ## JavaScript value model -/

mutual

inductive JsValue where
  | undef : JsValue
  | null : JsValue
  | bool (b : Bool) : JsValue
  | num (n : Int) : JsValue
  | str (s : String) : JsValue
  | arr (elems : JsArr) : JsValue
  | obj (fields : JsObj) : JsValue

inductive JsArr where
  | nil : JsArr
  | cons (head : JsValue) (tail : JsArr) : JsArr

inductive JsObj where
  | nil : JsObj
  | cons (key : String) (value : JsValue) (tail : JsObj) : JsObj

end

deriving instance DecidableEq for JsValue, JsArr, JsObj

/-- JavaScript truthiness of a value. -/
def jsTruthy : JsValue → Bool
  | .undef => false
  | .null => false
  | .bool b => b
  | .num n => n != 0
  | .str s => s != ""
  | .arr _ => true
  | .obj _ => true

/-- Whether `typeof v` is the string `"object"` in JavaScript
(true for plain objects, arrays and `null`). -/
def jsTypeofIsObject : JsValue → Bool
  | .null => true
  | .arr _ => true
  | .obj _ => true
  | _ => false

/-- Property lookup on a JS object: `key in o ? o[key] : undefined`,
returned as `none` when the property is absent. -/
def JsObj.get : JsObj → String → Option JsValue
  | .nil, _ => none
  | .cons k v rest, key => if k = key then some v else JsObj.get rest key

/-! ## JS string primitives used by the source -/

/-- Model of the JS expression `s[s.length - 1]` (`none` when out of range). -/
def jsLastChar (s : String) : Option Char := s.data.getLast?

/-- Model of the JS expression `s[0]`. -/
def jsFirstChar (s : String) : Option Char := s.data.head?

/-- Model of `s.slice(0, -1)`. -/
def jsDropLast (s : String) : String := ⟨s.data.dropLast⟩

/-- Model of `s.substring(1)`. -/
def jsDropFirst (s : String) : String := ⟨s.data.drop 1⟩

/-- Model of `s.includes(pat)` (substring containment). -/
def jsIncludes (s pat : String) : Bool := decide (pat.data <:+: s.data)

/-! ## Payload sanitizer (`helpers.ts` / `trimUndefinedProperties`) -/

mutual

/-- Model of `trimUndefinedProperties`: arrays recurse element-wise, objects
drop every key whose value is `undefined` and recurse into the remaining
values, and every other value (including `null`) passes through unchanged. -/
def trimUndefinedProperties : JsValue → JsValue
  | .arr xs => .arr (trimArr xs)
  | .obj fs => .obj (trimObj fs)
  | v => v

/-- Element-wise recursion of `trimUndefinedProperties` over an array
(`obj.map(trimUndefinedProperties)`). -/
def trimArr : JsArr → JsArr
  | .nil => .nil
  | .cons x xs => .cons (trimUndefinedProperties x) (trimArr xs)

/-- Key-wise recursion of `trimUndefinedProperties` over an object: the
`if (value !== undefined)` guard drops `undefined`-valued keys. -/
def trimObj : JsObj → JsObj
  | .nil => .nil
  | .cons k v fs =>
    match v with
    | .undef => trimObj fs
    | v => .cons k (trimUndefinedProperties v) (trimObj fs)

end

/-! ## Query string encoder (`helpers.ts` / `stringify`) -/

/-- Scalar query parameter values (`string | number | boolean | undefined`). -/
inductive IndividualValue where
  | undef : IndividualValue
  | str (s : String) : IndividualValue
  | num (n : Int) : IndividualValue
  | bool (b : Bool) : IndividualValue
deriving DecidableEq

/-- Query parameter entry values (`IndividualValue | IndividualValue[]`). -/
inductive QueryParamValue where
  | single (v : IndividualValue)
  | list (vs : List IndividualValue)
deriving DecidableEq

/-- Model of the JS conversion `String(v)` on an `IndividualValue`. -/
def jsScalarToString : IndividualValue → String
  | .undef => "undefined"
  | .str s => s
  | .num n => toString n
  | .bool true => "true"
  | .bool false => "false"

/-- Characters that `URLSearchParams.toString()` leaves unencoded under
`application/x-www-form-urlencoded` serialization. -/
def formUnreserved (c : Char) : Bool :=
  c.isAlphanum || c = '*' || c = '-' || c = '.' || c = '_'

/-- Uppercase hex digit. -/
def hexDigitUpper (n : Nat) : Char :=
  if n < 10 then Char.ofNat (48 + n) else Char.ofNat (55 + n)

/-- Percent-encoding of one byte, e.g. `%2F`. -/
def percentEncodeByte (b : UInt8) : String :=
  ⟨['%', hexDigitUpper (b.toNat / 16), hexDigitUpper (b.toNat % 16)]⟩

/-- Form-urlencoding of one character: unreserved characters pass through,
space becomes `+`, anything else is percent-encoded byte-wise (UTF-8). -/
def percentEncodeChar (c : Char) : String :=
  if formUnreserved c then String.singleton c
  else if c = ' ' then "+"
  else String.join ((String.utf8EncodeChar c).map percentEncodeByte)

/-- Form-urlencoding of a whole string. -/
def urlencode (s : String) : String := String.join (s.data.map percentEncodeChar)

/-- Model of `URLSearchParams.append`: adds the pair at the end of the list. -/
def searchParamsAppend (l : List (String × String)) (k v : String) :
    List (String × String) :=
  l ++ [(k, v)]

/-- Model of `URLSearchParams.set` (WHATWG): if a pair with the given name
exists, the first one receives the new value and all later pairs with that
name are removed; otherwise the pair is appended. -/
def searchParamsSet : List (String × String) → String → String → List (String × String)
  | [], k, v => [(k, v)]
  | (k0, v0) :: rest, k, v =>
    if k0 = k then (k, v) :: rest.filter (fun p => p.1 ≠ k)
    else (k0, v0) :: searchParamsSet rest k v

/-- Model of `URLSearchParams.toString()`: `k=v` pairs joined with `&`,
names and values form-urlencoded; the empty list yields the empty string. -/
def searchParamsToString (l : List (String × String)) : String :=
  String.intercalate "&" (l.map fun p => urlencode p.1 ++ "=" ++ urlencode p.2)

/-- Processing of one mapping entry by `stringify`'s `forEach` body:
`undefined` entries are skipped (the `=== null` arm of the guard is dead,
since the declared `QueryParamValue` type does not admit `null`); array
entries `append` one `key[]` pair per non-`undefined` element in order;
scalar entries `set` the bare key. -/
def stringifyStep (acc : List (String × String)) (entry : String × QueryParamValue) :
    List (String × String) :=
  match entry.2 with
  | .single .undef => acc
  | .single v => searchParamsSet acc entry.1 (jsScalarToString v)
  | .list vs =>
    vs.foldl
      (fun a val =>
        if val = .undef then a
        else searchParamsAppend a (entry.1 ++ "[]") (jsScalarToString val))
      acc

/-- Pair list accumulated by `stringify` over the mapping's entries, taken in
`Object.keys` order (the mapping is modelled as the ordered list of its
entries). -/
def stringifyPairs (params : List (String × QueryParamValue)) :
    List (String × String) :=
  params.foldl stringifyStep []

/-- Model of `helpers.ts` `stringify`. -/
def stringify (params : List (String × QueryParamValue)) : String :=
  searchParamsToString (stringifyPairs params)

/-! ## Cancellation composer (`fetchiosDropReplacement.ts` / `computeSignal`) -/

/-- Reason value carried by an aborted signal: an opaque caller-supplied
value, or a `FetchiosError` identified by its `message`/`status`/`code` data
fields (the timeout error's `config` argument is not carried here, so that
the reason type does not recursively contain the request params; no claim
inspects it). -/
inductive AbortReason where
  | external (tag : Nat)
  | fetchiosError (message : Option String) (status : Option Nat) (code : Option String)
deriving DecidableEq

/-- Observable state of an `AbortSignal`: whether it is aborted and with
which reason. -/
structure SignalState where
  aborted : Bool
  reason : Option AbortReason
deriving DecidableEq

/-- Scalar or list query parameter mapping attached to a request. -/
abbrev QueryParams := List (String × QueryParamValue)

/-- String-valued request headers, as an ordered record. -/
abbrev RequestHeaders := List (String × String)

/-- Model of the TS `FetchiosParams` interface. Optional fields are `Option`;
an omitted field is `none`. The caller's `signal` is its observable
`SignalState`; `onDownloadProgress` only records presence (the progress
callback runs a side read loop that never feeds the pipeline's result). -/
structure FetchiosParams where
  url : String := ""
  params : Option QueryParams := none
  baseURL : Option String := none
  data : Option JsValue := none
  method : Option String := none
  signal : Option SignalState := none
  timeout : Option Nat := none
  withCredentials : Option Bool := none
  headers : Option RequestHeaders := none
  responseType : Option String := none
  onDownloadProgress : Option Unit := none
deriving DecidableEq

/-- Model of `FetchiosDefaultParams = Omit<FetchiosParams, "url" | "params" | "signal" | "data">`. -/
structure FetchiosDefaultParams where
  baseURL : Option String := none
  method : Option String := none
  timeout : Option Nat := none
  withCredentials : Option Bool := none
  headers : Option RequestHeaders := none
  responseType : Option String := none
  onDownloadProgress : Option Unit := none
deriving DecidableEq

namespace ERROR_CODE

/-- Source constant `ERROR_CODE.TIMEOUT`. -/
def TIMEOUT : String := "ECONNABORTED"

/-- Source constant `ERROR_CODE.INVALID_JSON_RESPONSE`. -/
def INVALID_JSON_RESPONSE : String := "INVALID_JSON_RESPONSE"

end ERROR_CODE

/-- Outcome of `computeSignal`, as observable effects: the state of the
returned signal at the moment the function returns (`none` = it returned
`undefined`), whether the `setTimeout` timer is still pending, the abort
reason the timer callback would use when firing, and whether an `abort`
listener was registered on the caller's signal. -/
structure SignalSetup where
  returned : Option SignalState
  timerPending : Bool
  timerReason : Option AbortReason
  listenerAdded : Bool
deriving DecidableEq

/-- Model of `computeSignal` from `fetchiosDropReplacement.ts`.
`hasAbortController` models the platform capability check
`typeof AbortController === "undefined"`. With a falsy timeout (`undefined`
or `0`) the caller's signal is returned unchanged. Otherwise a composed
controller is created and a timer started; if the caller's signal is already
aborted the composed signal is aborted with the caller's reason and the
timer cleared; the `addEventListener` call runs in both cases. -/
def computeSignal (hasAbortController : Bool) (params : FetchiosParams) : SignalSetup :=
  if hasAbortController = false then
    { returned := none, timerPending := false, timerReason := none, listenerAdded := false }
  else if params.timeout = none ∨ params.timeout = some 0 then
    { returned := params.signal, timerPending := false, timerReason := none,
      listenerAdded := false }
  else
    let t := params.timeout.getD 0
    let timerReason : AbortReason :=
      .fetchiosError (some ("Timeout of " ++ toString t ++ "ms exceeded")) (some 408)
        (some ERROR_CODE.TIMEOUT)
    match params.signal with
    | none =>
      { returned := some { aborted := false, reason := none },
        timerPending := true, timerReason := some timerReason, listenerAdded := false }
    | some s =>
      if s.aborted = true then
        { returned := some { aborted := true, reason := s.reason },
          timerPending := false, timerReason := some timerReason, listenerAdded := true }
      else
        { returned := some { aborted := false, reason := none },
          timerPending := true, timerReason := some timerReason, listenerAdded := true }

/-- Operational step: the pending timer fires. The callback calls
`timeoutController.abort(reason)`, which aborts the composed signal with the
timer's reason unless it is already aborted; the timer is no longer
pending afterwards. Has no effect when no timer is pending (it was cleared
or never started). -/
def fireTimer (st : SignalSetup) : SignalSetup :=
  if st.timerPending = false then st
  else
    { st with
      timerPending := false
      returned := st.returned.map fun sig =>
        if sig.aborted then sig else { aborted := true, reason := st.timerReason } }

/-! ## Request interceptors and body serialization -/

/-- Model of the built-in `addQueryParams` interceptor. The source guard is
`!params.params || !Object.keys(params).length`: its second disjunct tests
the whole params object (which always has an `url` key), so only a missing
`params.params` mapping short-circuits. An empty encoded query string leaves
the params unchanged; otherwise it is appended to the URL after `&` when the
URL already contains `?`, else after `?`. -/
def addQueryParams (params : FetchiosParams) : FetchiosParams :=
  match params.params with
  | none => params
  | some qp =>
    let queryString := stringify qp
    if queryString = "" then params
    else
      { params with
        url := params.url ++ (if jsIncludes params.url "?" then "&" else "?") ++ queryString }

/-- JSON string-literal escaping used by the `JSON.stringify` model. -/
def jsonEscapeChar (c : Char) : String :=
  if c = '"' then "\\\""
  else if c = '\\' then "\\\\"
  else if c = '\n' then "\\n"
  else if c = '\r' then "\\r"
  else if c = '\t' then "\\t"
  else String.singleton c

mutual

/-- Model of the platform primitive `JSON.stringify` on `JsValue`: object
keys whose value is `undefined` are skipped, `undefined` array elements
serialize as `null`. (Top-level `undefined` cannot reach this model through
`bodyToJson`, which only serializes truthy object-typed bodies.) -/
def jsonStringify : JsValue → String
  | .undef => "null"
  | .null => "null"
  | .bool true => "true"
  | .bool false => "false"
  | .num n => toString n
  | .str s => "\"" ++ String.join (s.data.map jsonEscapeChar) ++ "\""
  | .arr xs => "[" ++ String.intercalate "," (jsonStringifyArr xs) ++ "]"
  | .obj fs => "\x7b" ++ String.intercalate "," (jsonStringifyObj fs) ++ "\x7d"

/-- Array elements of the `JSON.stringify` model. -/
def jsonStringifyArr : JsArr → List String
  | .nil => []
  | .cons x xs => jsonStringify x :: jsonStringifyArr xs

/-- Object members of the `JSON.stringify` model (`undefined`-valued keys
are skipped). -/
def jsonStringifyObj : JsObj → List String
  | .nil => []
  | .cons k v fs =>
    match v with
    | .undef => jsonStringifyObj fs
    | v =>
      ("\"" ++ String.join (k.data.map jsonEscapeChar) ++ "\":" ++ jsonStringify v)
        :: jsonStringifyObj fs

end

/-- Model of the JS property write `record[k] = v` on a plain object with
string values: overwrites the value in place when the key exists
(case-sensitively), else appends the new key at the end. -/
def recordSet (l : RequestHeaders) (k v : String) : RequestHeaders :=
  if l.any (fun p => p.1 = k) then l.map (fun p => if p.1 = k then (p.1, v) else p)
  else l ++ [(k, v)]

/-- Model of the object spread `{ ...a, ...b }` on string records: keys of
`a` in order with values overridden by `b`, then new keys of `b` appended in
`b`'s order. -/
def recordMerge (a b : RequestHeaders) : RequestHeaders :=
  b.foldl (fun acc p => recordSet acc p.1 p.2) a

/-- Model of the `Object.entries(headers).find(...)` predicate in
`bodyToJson`: some existing header whose name lowercases to `content-type`
and whose value contains `json`. -/
def hasJsonContentType (headers : RequestHeaders) : Bool :=
  headers.any fun p => p.1.toLower = "content-type" && jsIncludes p.2 "json"

/-- Model of `bodyToJson`: params pass through untouched unless `data` is a
truthy value of JS type object; a structured body is sanitized with
`trimUndefinedProperties`, JSON-encoded, and a `Content-Type:
application/json` header is written on a copy of the headers unless a
json-flavored content type is already present. -/
def bodyToJson (params : FetchiosParams) : FetchiosParams :=
  match params.data with
  | none => params
  | some d =>
    if jsTruthy d = false ∨ jsTypeofIsObject d = false then params
    else
      let formattedData := jsonStringify (trimUndefinedProperties d)
      let headers := params.headers.getD []
      let headers :=
        if hasJsonContentType headers then headers
        else recordSet headers "Content-Type" "application/json"
      { params with data := some (.str formattedData), headers := some headers }

/-- Model of `computeUrl`: with no (or an empty) base URL the path is used
unchanged; otherwise one trailing slash of the base and one leading slash of
the path are stripped and the two parts are joined with a single `/`
(`[part1, part2].join("/")`). -/
def computeUrl (url : String) (baseUrl : Option String) : String :=
  match baseUrl with
  | none => url
  | some b =>
    if b = "" then url
    else
      let part1 := if jsLastChar b = some '/' then jsDropLast b else b
      let part2 := if jsFirstChar url = some '/' then jsDropFirst url else url
      part1 ++ "/" ++ part2

/-! ## Response materialization -/

/-- Model of the transport `Response` as observed by the pipeline: the `ok`
flag, the numeric `status`, and the raw payload that `text()`, `blob()` and
`arrayBuffer()` decode (the same underlying bytes, modelled as one string). -/
structure Response where
  ok : Bool
  status : Nat
  rawBody : String
deriving DecidableEq

/-- Materialized response body: a JS value (parsed JSON, raw text, or
`undefined` for an empty body), a Blob, or an ArrayBuffer. -/
inductive ResponseData where
  | js (v : JsValue)
  | blob (raw : String)
  | buffer (raw : String)
deriving DecidableEq

/-- Model of the `fetchiosResponse` object literal built in
`Fetchios.request` (fields `data`, `params`, `response`, `status`). -/
structure FetchiosResponse where
  data : ResponseData
  params : FetchiosParams
  response : Response
  status : Nat
deriving DecidableEq

/-- Model of the `FetchiosError` class: the constructor arguments `message`,
`status`, `code`, `config`, `request`, `response`. -/
structure FetchiosError where
  message : Option String := none
  status : Option Nat := none
  code : Option String := none
  config : Option FetchiosParams := none
  request : Option Unit := none
  response : Option FetchiosResponse := none
deriving DecidableEq

/-- Errors thrown by the pipeline: a `FetchiosError`, or the plain `Error`
thrown by `assertUnreachable`. -/
inductive JsError where
  | fetchios (e : FetchiosError)
  | jsError (message : String)
deriving DecidableEq

deriving instance DecidableEq for Except

/-- Model of `assertUnreachable`: the plain `Error` it throws, carrying the
template message over the unexpected value. -/
def assertUnreachable (x : String) : JsError :=
  .jsError ("Didn\x27t expect to get here. You must manage value \"" ++ x ++ "\"")

/-- Model of `getResponseData`. `jsonParse` models the platform primitive
`JSON.parse` (`none` means the text is not valid JSON and `JSON.parse`
throws). On a non-`ok` status or in `json` mode the body text is read: an
empty text materializes as `undefined`; a parse failure throws the
`Invalid JSON` `FetchiosError` when the status was `ok`, else degrades to
the raw text. Other modes return the respective decoding, and any other
mode value reaches `assertUnreachable`. -/
def getResponseData (jsonParse : String → Option JsValue) (response : Response)
    (fetchiosResponse : FetchiosResponse) (responseType : Option String) :
    Except JsError ResponseData :=
  let rt := responseType.getD "json"
  if response.ok = false ∨ rt = "json" then
    let textData := response.rawBody
    if textData = "" then .ok (.js .undef)
    else
      match jsonParse textData with
      | some jsonData => .ok (.js jsonData)
      | none =>
        if response.ok then
          .error (.fetchios
            { message := some "Invalid JSON", status := some 400,
              code := some ERROR_CODE.INVALID_JSON_RESPONSE,
              response := some fetchiosResponse })
        else .ok (.js (.str textData))
  else if rt = "text" then .ok (.js (.str response.rawBody))
  else if rt = "blob" then .ok (.blob response.rawBody)
  else if rt = "arraybuffer" then .ok (.buffer response.rawBody)
  else .error (assertUnreachable rt)

/-- Model of the `messageFromData` computation in `Fetchios.request`: the
`message` property of the materialized data when it is a non-`null` object
that has one (`"message" in data`); arrays, Blobs and ArrayBuffers are
`typeof "object"` too but never carry an own `message` property coming from
the pipeline, and every other value fails the `typeof` test. -/
def messageFromData : ResponseData → Option JsValue
  | .js (.obj fs) => fs.get "message"
  | _ => none

/-! ## Client facade and request pipeline -/

/-- Request interceptors transform the request params
(`FetchiosRequestInterceptor`). -/
abbrev FetchiosRequestInterceptor : Type := FetchiosParams → FetchiosParams

/-- Model of the `Fetchios` facade state: the private `config` and the
mutable `requestInterceptors` field. -/
structure Fetchios where
  config : FetchiosDefaultParams
  requestInterceptors : List FetchiosRequestInterceptor

/-- Model of `Fetchios.create` / the constructor: the default config is `{}`
when omitted and the interceptor list starts as `[addQueryParams]`. -/
def Fetchios.create (config : Option FetchiosDefaultParams) : Fetchios :=
  { config := config.getD {}, requestInterceptors := [addQueryParams] }

/-- Model of `interceptors.request.use`: appends the interceptor and returns
it (for later removal). -/
def Fetchios.interceptorsRequestUse (f : Fetchios) (fn : FetchiosRequestInterceptor) :
    Fetchios × FetchiosRequestInterceptor :=
  ({ f with requestInterceptors := f.requestInterceptors ++ [fn] }, fn)

/-- Model of `interceptors.request.clear`: replaces the interceptor list
with the empty list, removing the built-in `addQueryParams` along with every
user-registered interceptor. (`eject` removes by JS reference equality,
which has no counterpart on Lean functions and is not needed here.) -/
def Fetchios.interceptorsRequestClear (f : Fetchios) : Fetchios :=
  { f with requestInterceptors := [] }

/-- Merge of instance defaults with per-call config, modelling
`{ ...this.config, ...config, headers: { ...this.config.headers,
...config.headers }, params: { ...config.params } }`: per-call fields
override defaults when present, headers are a shallow key-union with
per-call keys winning, and `params` is per-call only (always rebuilt as an
object, so a missing per-call mapping becomes the empty one). -/
def mergeParams (cfg : FetchiosDefaultParams) (config : FetchiosParams) : FetchiosParams :=
  { url := config.url
    params := some (config.params.getD [])
    baseURL := config.baseURL <|> cfg.baseURL
    data := config.data
    method := config.method <|> cfg.method
    signal := config.signal
    timeout := config.timeout <|> cfg.timeout
    withCredentials := config.withCredentials <|> cfg.withCredentials
    headers := some (recordMerge (cfg.headers.getD []) (config.headers.getD []))
    responseType := config.responseType <|> cfg.responseType
    onDownloadProgress := config.onDownloadProgress <|> cfg.onDownloadProgress }

/-- Model of `if (!computedParams.responseType) computedParams.responseType =
"json"`: both `undefined` and the empty string are falsy. -/
def withDefaultResponseType (p : FetchiosParams) : FetchiosParams :=
  if p.responseType = none ∨ p.responseType = some "" then
    { p with responseType := some "json" }
  else p

/-- Transport invocation computed by `Fetchios.request`: the final computed
params (carrying the serialized body and headers handed to `fetch`), the
final URL, and the composed cancellation signal. -/
structure PreparedRequest where
  computedParams : FetchiosParams
  finalUrl : String
  signalSetup : SignalSetup

/-- Model of `Fetchios.request` up to the `fetch` call: merge with the
instance defaults, default the response type to `json`, fold the interceptor
chain in registration order, apply the `bodyToJson` post-interceptor, then
compute the final URL and compose the cancellation signal. -/
def Fetchios.prepare (hasAbortController : Bool) (f : Fetchios)
    (config : FetchiosParams) : PreparedRequest :=
  let computedParams := withDefaultResponseType (mergeParams f.config config)
  let computedParams := f.requestInterceptors.foldl (fun p fn => fn p) computedParams
  let computedParams := bodyToJson computedParams
  { computedParams := computedParams
    finalUrl := computeUrl computedParams.url computedParams.baseURL
    signalSetup := computeSignal hasAbortController computedParams }

/-- Model of the `.then` continuation of `Fetchios.request` once the
transport resolves: builds the `fetchiosResponse` envelope, materializes the
body with `getResponseData` (a thrown error rejects the whole call), and on
a non-`ok` status throws a `FetchiosError`. The `message` expression keeps
the source's operator precedence: `messageFromData || response.status ? A :
B` groups as `(messageFromData || response.status) ? A : B`. The optional
download-progress side read consumes a cloned response and never feeds this
result, so it is not modelled. -/
def Fetchios.handleResponse (jsonParse : String → Option JsValue)
    (computedParams : FetchiosParams) (response : Response) :
    Except JsError FetchiosResponse :=
  let fetchiosResponse : FetchiosResponse :=
    { data := .js .undef, params := computedParams, response := response,
      status := response.status }
  match getResponseData jsonParse response fetchiosResponse computedParams.responseType with
  | .error e => .error e
  | .ok d =>
    let fetchiosResponse := { fetchiosResponse with data := d }
    if response.ok then .ok fetchiosResponse
    else
      let msgTruthy : Bool :=
        match messageFromData d with
        | none => false
        | some v => jsTruthy v
      let message :=
        if msgTruthy = true ∨ response.status ≠ 0 then
          "Request failed with status code " ++ toString response.status
        else "Network error"
      .error (.fetchios
        { message := some message, status := some response.status,
          config := some computedParams, response := some fetchiosResponse })

/-! ## Helper lemmas -/

theorem trimUndefinedProperties_eq_undef_iff (v : JsValue) :
    trimUndefinedProperties v = .undef ↔ v = .undef := by
  cases v <;> simp [trimUndefinedProperties]

theorem trimObj_cons_of_ne_undef (k : String) (v : JsValue) (fs : JsObj)
    (hv : v ≠ .undef) :
    trimObj (.cons k v fs) = .cons k (trimUndefinedProperties v) (trimObj fs) := by
  cases v
  case undef => exact absurd rfl hv
  all_goals rfl

mutual

theorem trimIdem : ∀ (v : JsValue),
    trimUndefinedProperties (trimUndefinedProperties v) = trimUndefinedProperties v
  | .undef => rfl
  | .null => rfl
  | .bool _ => rfl
  | .num _ => rfl
  | .str _ => rfl
  | .arr xs => by
      show JsValue.arr (trimArr (trimArr xs)) = JsValue.arr (trimArr xs)
      rw [trimArrIdem xs]
  | .obj fs => by
      show JsValue.obj (trimObj (trimObj fs)) = JsValue.obj (trimObj fs)
      rw [trimObjIdem fs]

theorem trimArrIdem : ∀ (xs : JsArr), trimArr (trimArr xs) = trimArr xs
  | .nil => rfl
  | .cons x xs => by
      show JsArr.cons (trimUndefinedProperties (trimUndefinedProperties x)) (trimArr (trimArr xs))
          = JsArr.cons (trimUndefinedProperties x) (trimArr xs)
      rw [trimIdem x, trimArrIdem xs]

theorem trimObjIdem : ∀ (fs : JsObj), trimObj (trimObj fs) = trimObj fs
  | .nil => rfl
  | .cons k v fs => by
      by_cases hv : v = JsValue.undef
      · subst hv
        show trimObj (trimObj fs) = trimObj fs
        exact trimObjIdem fs
      · have hv2 : trimUndefinedProperties v ≠ JsValue.undef := fun h =>
          hv ((trimUndefinedProperties_eq_undef_iff v).mp h)
        rw [trimObj_cons_of_ne_undef k v fs hv,
          trimObj_cons_of_ne_undef k _ _ hv2, trimIdem v, trimObjIdem fs]

end

/-- C9: for every nested value (scalar, null, list, or keyed mapping),
sanitizing is idempotent:
`trimUndefinedProperties (trimUndefinedProperties x) = trimUndefinedProperties x`. -/
theorem C9_sanitize_idempotent (x : JsValue) :
    trimUndefinedProperties (trimUndefinedProperties x) = trimUndefinedProperties x :=
  trimIdem x

theorem withDefaultResponseType_url (p : FetchiosParams) :
    (withDefaultResponseType p).url = p.url := by
  unfold withDefaultResponseType; split <;> rfl

theorem withDefaultResponseType_baseURL (p : FetchiosParams) :
    (withDefaultResponseType p).baseURL = p.baseURL := by
  unfold withDefaultResponseType; split <;> rfl

theorem withDefaultResponseType_signal (p : FetchiosParams) :
    (withDefaultResponseType p).signal = p.signal := by
  unfold withDefaultResponseType; split <;> rfl

theorem addQueryParams_baseURL (p : FetchiosParams) :
    (addQueryParams p).baseURL = p.baseURL := by
  unfold addQueryParams
  split
  · rfl
  · dsimp only
    split <;> rfl

theorem addQueryParams_signal (p : FetchiosParams) :
    (addQueryParams p).signal = p.signal := by
  unfold addQueryParams
  split
  · rfl
  · dsimp only
    split <;> rfl

theorem bodyToJson_url (p : FetchiosParams) : (bodyToJson p).url = p.url := by
  unfold bodyToJson
  split
  · rfl
  · split <;> rfl

theorem bodyToJson_baseURL (p : FetchiosParams) : (bodyToJson p).baseURL = p.baseURL := by
  unfold bodyToJson
  split
  · rfl
  · split <;> rfl

theorem bodyToJson_signal (p : FetchiosParams) : (bodyToJson p).signal = p.signal := by
  unfold bodyToJson
  split
  · rfl
  · split <;> rfl

theorem computeSignal_of_aborted (p : FetchiosParams) (s : SignalState)
    (hs : p.signal = some s) (hab : s.aborted = true) :
    (computeSignal true p).returned = some { aborted := true, reason := s.reason } ∧
      (computeSignal true p).timerPending = false := by
  cases s with
  | mk a r =>
    cases hab
    by_cases ht : p.timeout = none ∨ p.timeout = some 0 <;>
      simp [computeSignal, ht, hs]

/-- C3: for every call to `request` on a facade with the default interceptor
chain, when the caller-supplied cancellation signal is already canceled at
call time (under any timeout), the composed signal handed to the transport
is already canceled with the caller's reason and no pending timeout timer
remains. -/
theorem C3_preaborted_signal_propagates (cfg : FetchiosDefaultParams)
    (config : FetchiosParams) (s : SignalState)
    (hs : config.signal = some s) (hab : s.aborted = true) :
    (Fetchios.prepare true (Fetchios.create (some cfg)) config).signalSetup.returned
        = some { aborted := true, reason := s.reason } ∧
      (Fetchios.prepare true (Fetchios.create (some cfg)) config).signalSetup.timerPending
        = false := by
  have hsig :
      (bodyToJson (addQueryParams (withDefaultResponseType (mergeParams cfg config)))).signal
        = some s := by
    rw [bodyToJson_signal, addQueryParams_signal, withDefaultResponseType_signal]
    exact hs
  exact computeSignal_of_aborted _ s hsig hab

/-- Witness for C3 at a concrete already-canceled caller signal with a
timeout of 50. -/
theorem C3_witness :
    (Fetchios.prepare true (Fetchios.create (some {}))
          { url := "/x", signal := some { aborted := true, reason := some (.external 3) },
            timeout := some 50 }).signalSetup.returned
        = some { aborted := true, reason := some (.external 3) } ∧
      (Fetchios.prepare true (Fetchios.create (some {}))
          { url := "/x", signal := some { aborted := true, reason := some (.external 3) },
            timeout := some 50 }).signalSetup.timerPending = false :=
  C3_preaborted_signal_propagates {} _ { aborted := true, reason := some (.external 3) } rfl rfl

/-- C6: when a (nonzero) timeout is given and the timer fires before any
caller cancellation, the composed signal is canceled with a `FetchiosError`
carrying code `ECONNABORTED` and status 408 as its reason. -/
theorem C6_timeout_reason (p : FetchiosParams) (t : Nat)
    (ht : p.timeout = some t) (ht0 : t ≠ 0)
    (hsig : p.signal = none ∨ ∃ s, p.signal = some s ∧ s.aborted = false) :
    (computeSignal true p).timerPending = true ∧
      (computeSignal true p).timerReason
        = some (.fetchiosError (some ("Timeout of " ++ toString t ++ "ms exceeded"))
            (some 408) (some ERROR_CODE.TIMEOUT)) ∧
      (fireTimer (computeSignal true p)).returned
        = some { aborted := true,
                 reason := some (.fetchiosError
                   (some ("Timeout of " ++ toString t ++ "ms exceeded"))
                   (some 408) (some ERROR_CODE.TIMEOUT)) } := by
  rcases hsig with hnone | ⟨s, hsome, hnab⟩
  · simp [computeSignal, hnone, ht, ht0, fireTimer]
  · simp [computeSignal, hsome, hnab, ht, ht0, fireTimer]

/-- Witness for C6 at a concrete 5-unit timeout with no caller signal. -/
theorem C6_witness :
    (computeSignal true { url := "/x", timeout := some 5 }).timerPending = true ∧
      (computeSignal true { url := "/x", timeout := some 5 }).timerReason
        = some (.fetchiosError (some "Timeout of 5ms exceeded") (some 408)
            (some "ECONNABORTED")) ∧
      (fireTimer (computeSignal true { url := "/x", timeout := some 5 })).returned
        = some { aborted := true,
                 reason := some (.fetchiosError (some "Timeout of 5ms exceeded") (some 408)
                   (some "ECONNABORTED")) } := by
  have h := C6_timeout_reason { url := "/x", timeout := some 5 } 5 rfl (by decide) (Or.inl rfl)
  exact ⟨h.1, h.2.1.trans (by decide), h.2.2.trans (by decide)⟩

/-- C1 (code bug): at a transport response with status 404 whose body
decodes to an object with `message` field `"not found"`, the thrown error's
message is the generic `"Request failed with status code 404"`, not the
body's `"not found"`. The body message is extracted (first conjunct) but the
source's ternary `messageFromData || response.status ? A : B` groups as
`(messageFromData || response.status) ? A : B`, so it never becomes the
error message. -/
theorem C1_body_message_never_used :
    messageFromData (.js (.obj (.cons "message" (.str "not found") .nil)))
        = some (.str "not found") ∧
      Fetchios.handleResponse
          (fun s =>
            if s = "\x7b\"message\":\"not found\"\x7d" then
              some (.obj (.cons "message" (.str "not found") .nil))
            else none)
          { url := "/x", responseType := some "json" }
          { ok := false, status := 404, rawBody := "\x7b\"message\":\"not found\"\x7d" }
        = .error (.fetchios
            { message := some "Request failed with status code 404",
              status := some 404,
              config := some { url := "/x", responseType := some "json" },
              response := some
                { data := .js (.obj (.cons "message" (.str "not found") .nil)),
                  params := { url := "/x", responseType := some "json" },
                  response :=
                    { ok := false, status := 404,
                      rawBody := "\x7b\"message\":\"not found\"\x7d" },
                  status := 404 } }) ∧
      some "Request failed with status code 404" ≠ some "not found" := by
  refine ⟨rfl, by decide, by decide⟩

/-- C2: for a response read in json mode (or with a failure status) whose
body text is non-empty and not valid JSON, `request` rejects with the
`INVALID_JSON_RESPONSE` ClientError (status 400) when the transport status
was a success, while a failure status instead materializes the raw text as
the body carried inside the thrown HTTP-status error (the decode
asymmetry, in both directions). -/
theorem C2_json_decode_asymmetry (jsonParse : String → Option JsValue)
    (p : FetchiosParams) (resp : Response)
    (hne : resp.rawBody ≠ "") (hbad : jsonParse resp.rawBody = none) :
    (resp.ok = true → p.responseType.getD "json" = "json" →
      Fetchios.handleResponse jsonParse p resp = .error (.fetchios
        { message := some "Invalid JSON", status := some 400,
          code := some ERROR_CODE.INVALID_JSON_RESPONSE,
          response := some
            { data := .js .undef, params := p, response := resp,
              status := resp.status } })) ∧
    (resp.ok = false →
      Fetchios.handleResponse jsonParse p resp = .error (.fetchios
        { message := some (if resp.status ≠ 0 then
              "Request failed with status code " ++ toString resp.status
            else "Network error"),
          status := some resp.status,
          config := some p,
          response := some
            { data := .js (.str resp.rawBody), params := p, response := resp,
              status := resp.status } })) := by
  constructor
  · intro hok hrt
    simp [Fetchios.handleResponse, getResponseData, hok, hrt, hne, hbad]
  · intro hok
    simp [Fetchios.handleResponse, getResponseData, hok, hne, hbad, messageFromData]

/-- Witness for C2 at concrete invalid-JSON bodies: a 200 response rejects
with the decode error; a 500 response degrades the body to the raw text
inside the HTTP-status error. -/
theorem C2_witness :
    Fetchios.handleResponse (fun _ => none) { url := "/x", responseType := some "json" }
        { ok := true, status := 200, rawBody := "notjson" }
      = .error (.fetchios
          { message := some "Invalid JSON", status := some 400,
            code := some ERROR_CODE.INVALID_JSON_RESPONSE,
            response := some
              { data := .js .undef, params := { url := "/x", responseType := some "json" },
                response := { ok := true, status := 200, rawBody := "notjson" },
                status := 200 } }) ∧
      Fetchios.handleResponse (fun _ => none) { url := "/x", responseType := some "json" }
          { ok := false, status := 500, rawBody := "notjson" }
        = .error (.fetchios
            { message := some "Request failed with status code 500",
              status := some 500,
              config := some { url := "/x", responseType := some "json" },
              response := some
                { data := .js (.str "notjson"),
                  params := { url := "/x", responseType := some "json" },
                  response := { ok := false, status := 500, rawBody := "notjson" },
                  status := 500 } }) := by
  constructor
  · exact (C2_json_decode_asymmetry (fun _ => none) _ _ (by decide) rfl).1 rfl rfl
  · exact ((C2_json_decode_asymmetry (fun _ => none) _ _ (by decide) rfl).2 rfl).trans (by decide)

/-- C8: for every materialization mode value not among
json/text/blob/arraybuffer, with a success status (so the json fallback
branch is not taken), body materialization throws the `assertUnreachable`
error and never returns a value. -/
theorem C8_unknown_mode_asserts (jsonParse : String → Option JsValue)
    (resp : Response) (fr : FetchiosResponse) (rt : String)
    (hok : resp.ok = true) (h1 : rt ≠ "json") (h2 : rt ≠ "text")
    (h3 : rt ≠ "blob") (h4 : rt ≠ "arraybuffer") :
    getResponseData jsonParse resp fr (some rt) = .error (assertUnreachable rt) ∧
      ∀ d : ResponseData, getResponseData jsonParse resp fr (some rt) ≠ .ok d := by
  have hmain : getResponseData jsonParse resp fr (some rt) = .error (assertUnreachable rt) := by
    simp [getResponseData, hok, h1, h2, h3, h4]
  exact ⟨hmain, fun d hd => by rw [hmain] at hd; exact Except.noConfusion hd⟩

/-- Witness for C8 at the concrete mode value `"document"`. -/
theorem C8_witness :
    getResponseData (fun _ => none) { ok := true, status := 200, rawBody := "" }
        { data := .js .undef, params := { url := "/x" },
          response := { ok := true, status := 200, rawBody := "" }, status := 200 }
        (some "document")
      = .error (assertUnreachable "document") :=
  (C8_unknown_mode_asserts _ _ _ "document" rfl (by decide) (by decide) (by decide)
    (by decide)).1

theorem slash_append_dropFirst (url : String) (hu : jsFirstChar url = some '/') :
    "/" ++ jsDropFirst url = url := by
  apply String.ext
  rw [String.data_append]
  show '/' :: url.data.drop 1 = url.data
  cases hd : url.data with
  | nil => rw [jsFirstChar, hd] at hu; exact Option.noConfusion hu
  | cons c cs =>
    rw [jsFirstChar, hd] at hu
    have hc : c = '/' := Option.some.inj hu
    rw [List.drop_one, List.tail_cons, hc]

/-- C4: with no base URL (or an empty one) the path is used unchanged; with
a base present the final URL is the slash-stripped base joined to the
slash-stripped path by exactly one separating `/`, so a trailing slash on
the base and a leading slash on the path collapse to a single separator;
and the URL handed to the transport is `computeUrl` of the query-augmented
path and the merged base. -/
theorem C4_url_composition (url b : String) (hb0 : b ≠ "")
    (hb : jsLastChar b = some '/') (hu : jsFirstChar url = some '/') :
    computeUrl url none = url ∧
      computeUrl url (some "") = url ∧
      computeUrl url (some b) = jsDropLast b ++ url ∧
      (∀ (hasAC : Bool) (cfg : FetchiosDefaultParams) (config : FetchiosParams),
        (Fetchios.prepare hasAC (Fetchios.create (some cfg)) config).finalUrl
          = computeUrl (addQueryParams (withDefaultResponseType (mergeParams cfg config))).url
              (addQueryParams (withDefaultResponseType (mergeParams cfg config))).baseURL) := by
  refine ⟨rfl, rfl, ?_, ?_⟩
  · show (if b = "" then url
        else
          (if jsLastChar b = some '/' then jsDropLast b else b) ++ "/" ++
            (if jsFirstChar url = some '/' then jsDropFirst url else url))
      = jsDropLast b ++ url
    rw [if_neg hb0, if_pos hb, if_pos hu, String.append_assoc,
      slash_append_dropFirst url hu]
  · intro hasAC cfg config
    show computeUrl
        (bodyToJson (addQueryParams (withDefaultResponseType (mergeParams cfg config)))).url
        (bodyToJson (addQueryParams (withDefaultResponseType (mergeParams cfg config)))).baseURL
      = _
    rw [bodyToJson_url, bodyToJson_baseURL]

/-- Witness for C4 at the spec's example: base `https://api.example.com/`
and path `/users` yield `https://api.example.com/users` (no doubled
slash). -/
theorem C4_witness :
    computeUrl "/users" (some "https://api.example.com/") = "https://api.example.com/users" := by
  have h := (C4_url_composition "/users" "https://api.example.com/" (by decide) (by decide)
    (by decide)).2.2.1
  exact h.trans (by decide)

/-- C5: for a structured (object or array) body, the transmitted body is
the JSON encoding of the sanitized value, and `Content-Type:
application/json` is written unless an existing header whose name matches
`content-type` case-insensitively already has a value containing `json`
(in which case the headers are left as they were). -/
theorem C5_structured_body_serialization (p : FetchiosParams) (d : JsValue)
    (hd : p.data = some d)
    (hstruct : (∃ fs, d = JsValue.obj fs) ∨ (∃ xs, d = JsValue.arr xs)) :
    (bodyToJson p).data = some (.str (jsonStringify (trimUndefinedProperties d))) ∧
      (hasJsonContentType (p.headers.getD []) = false →
        (bodyToJson p).headers
          = some (recordSet (p.headers.getD []) "Content-Type" "application/json")) ∧
      (hasJsonContentType (p.headers.getD []) = true →
        (bodyToJson p).headers = some (p.headers.getD [])) := by
  have hcond : ¬ (jsTruthy d = false ∨ jsTypeofIsObject d = false) := by
    rcases hstruct with ⟨fs, rfl⟩ | ⟨xs, rfl⟩ <;> simp [jsTruthy, jsTypeofIsObject]
  refine ⟨?_, ?_, ?_⟩
  · simp [bodyToJson, hd, hcond]
  · intro hnc
    simp [bodyToJson, hd, hcond, hnc]
  · intro hc
    simp [bodyToJson, hd, hcond, hc]

/-- Witness for C5 at the spec's example: body `{a:1,b:undefined}` with no
headers serializes to the text `{"a":1}` and sets `Content-Type:
application/json`. -/
theorem C5_witness :
    (bodyToJson
          { url := "/u",
            data := some (.obj (.cons "a" (.num 1) (.cons "b" .undef .nil))) }).data
        = some (.str "\x7b\"a\":1\x7d") ∧
      (bodyToJson
            { url := "/u",
              data := some (.obj (.cons "a" (.num 1) (.cons "b" .undef .nil))) }).headers
        = some [("Content-Type", "application/json")] := by
  have h := C5_structured_body_serialization
    { url := "/u", data := some (.obj (.cons "a" (.num 1) (.cons "b" .undef .nil))) }
    (.obj (.cons "a" (.num 1) (.cons "b" .undef .nil))) rfl (Or.inl ⟨_, rfl⟩)
  exact ⟨h.1.trans (by decide), (h.2.1 (by decide)).trans (by decide)⟩

/-- C10: `interceptors.request.clear` empties the interceptor list,
removing the built-in query-string interceptor along with all
user-registered ones, so every subsequent request's final URL is computed
from the caller's URL unchanged — no encoded query parameters are appended
even when a non-empty query mapping is supplied. -/
theorem C10_clear_drops_query_interceptor (f : Fetchios) (hasAC : Bool)
    (config : FetchiosParams) :
    (Fetchios.interceptorsRequestClear f).requestInterceptors = [] ∧
      (Fetchios.prepare hasAC (Fetchios.interceptorsRequestClear f) config).finalUrl
        = computeUrl config.url (config.baseURL <|> f.config.baseURL) := by
  refine ⟨rfl, ?_⟩
  show computeUrl (bodyToJson (withDefaultResponseType (mergeParams f.config config))).url
      (bodyToJson (withDefaultResponseType (mergeParams f.config config))).baseURL = _
  rw [bodyToJson_url, bodyToJson_baseURL, withDefaultResponseType_url,
    withDefaultResponseType_baseURL]
  rfl

theorem filter_eq_of_filter_ne (k : String) (l : List (String × String)) :
    (l.filter (fun p => p.1 ≠ k)).filter (fun p => p.1 = k) = [] := by
  induction l with
  | nil => rfl
  | cons hd tl ih => by_cases h : hd.1 = k <;> simp [h, ih]

theorem searchParamsSet_filter (l : List (String × String)) (k v : String) :
    (searchParamsSet l k v).filter (fun p => p.1 = k) = [(k, v)] := by
  induction l with
  | nil => simp [searchParamsSet]
  | cons hd tl ih =>
    obtain ⟨k0, v0⟩ := hd
    by_cases hk : k0 = k
    · subst hk
      simp [searchParamsSet, filter_eq_of_filter_ne]
    · simp [searchParamsSet, hk, ih]

theorem listEntry_foldl (key : String) (vs : List IndividualValue)
    (acc : List (String × String)) :
    vs.foldl
        (fun a val =>
          if val = IndividualValue.undef then a
          else searchParamsAppend a (key ++ "[]") (jsScalarToString val)) acc
      = acc ++ vs.filterMap (fun x =>
          if x = IndividualValue.undef then none
          else some (key ++ "[]", jsScalarToString x)) := by
  induction vs generalizing acc with
  | nil => simp
  | cons x xs ih =>
    rw [List.foldl_cons]
    by_cases hx : x = IndividualValue.undef
    · subst hx
      rw [if_pos rfl, ih]
      simp
    · rw [if_neg hx, ih]
      simp [searchParamsAppend, hx, List.append_assoc]

theorem foldl_stringifyStep_all_undef (qs : QueryParams) (acc : List (String × String))
    (habs : ∀ e ∈ qs, e.2 = QueryParamValue.single IndividualValue.undef) :
    qs.foldl stringifyStep acc = acc := by
  induction qs generalizing acc with
  | nil => rfl
  | cons e qs ih =>
    obtain ⟨k, v⟩ := e
    have he : v = QueryParamValue.single IndividualValue.undef := habs (k, v) (by simp)
    subst he
    rw [List.foldl_cons]
    exact ih acc fun e' h' => habs e' (List.mem_cons_of_mem _ h')

theorem stringifyPairs_skip (pre post : QueryParams) (k : String) :
    stringifyPairs (pre ++ (k, QueryParamValue.single IndividualValue.undef) :: post)
      = stringifyPairs (pre ++ post) := by
  unfold stringifyPairs
  rw [List.foldl_append, List.foldl_cons, List.foldl_append]
  rfl

/-- C7: the query encoder skips absent entries entirely, encodes a list
entry as repeated `key[]` pairs (one per non-absent element, in list
order), encodes a scalar entry exactly once under the bare key with a later
write overwriting every earlier pair of that key, and returns the empty
string for an empty or all-absent mapping. -/
theorem C7_query_encoding (pre post qs : QueryParams) (k : String)
    (vs : List IndividualValue) (v : IndividualValue)
    (hv : v ≠ IndividualValue.undef)
    (habs : ∀ e ∈ qs, e.2 = QueryParamValue.single IndividualValue.undef) :
    stringify (pre ++ (k, QueryParamValue.single IndividualValue.undef) :: post)
        = stringify (pre ++ post) ∧
      stringifyPairs (pre ++ [(k, QueryParamValue.list vs)])
        = stringifyPairs pre ++ vs.filterMap (fun x =>
            if x = IndividualValue.undef then none
            else some (k ++ "[]", jsScalarToString x)) ∧
      stringifyPairs (pre ++ [(k, QueryParamValue.single v)])
        = searchParamsSet (stringifyPairs pre) k (jsScalarToString v) ∧
      (stringifyPairs (pre ++ [(k, QueryParamValue.single v)])).filter (fun p => p.1 = k)
        = [(k, jsScalarToString v)] ∧
      stringify [] = "" ∧
      stringify qs = "" := by
  have hscalar : stringifyPairs (pre ++ [(k, QueryParamValue.single v)])
      = searchParamsSet (stringifyPairs pre) k (jsScalarToString v) := by
    unfold stringifyPairs
    rw [List.foldl_append, List.foldl_cons, List.foldl_nil]
    cases v
    case undef => exact absurd rfl hv
    all_goals rfl
  refine ⟨?_, ?_, hscalar, ?_, rfl, ?_⟩
  · unfold stringify
    rw [stringifyPairs_skip]
  · unfold stringifyPairs
    rw [List.foldl_append, List.foldl_cons, List.foldl_nil]
    exact listEntry_foldl k vs _
  · rw [hscalar, searchParamsSet_filter]
  · unfold stringify stringifyPairs
    rw [foldl_stringifyStep_all_undef qs [] habs]
    rfl

/-- Witness for C7 at a concrete mapping: the absent entry `b` is skipped,
the list entry `c` becomes repeated `c[]` pairs skipping its absent
element, a second write to `a` overwrites the first, and an all-absent
mapping encodes to the empty string. -/
theorem C7_witness :
    stringify [("a", .single (.num 1)), ("b", .single .undef), ("c", .list [.str "x", .undef, .str "y"])]
        = stringify [("a", .single (.num 1)), ("c", .list [.str "x", .undef, .str "y"])] ∧
      stringify [("a", .single (.num 1)), ("b", .single .undef), ("c", .list [.str "x", .undef, .str "y"])]
        = "a=1&c%5B%5D=x&c%5B%5D=y" ∧
      (stringifyPairs [("a", .single (.num 1)), ("a", .single (.num 2))]).filter
          (fun p => p.1 = "a")
        = [("a", "2")] ∧
      stringify [("z", .single .undef)] = "" := by
  have h1 := C7_query_encoding [("a", .single (.num 1))]
    [("c", .list [.str "x", .undef, .str "y"])] [("z", .single .undef)] "b" [] (.num 1)
    (by decide) (by intro e he; simp at he; rw [he])
  have h2 := C7_query_encoding [("a", .single (.num 1))] [] [("z", .single .undef)] "a" []
    (.num 2) (by decide) (by intro e he; simp at he; rw [he])
  exact ⟨h1.1, h1.1.trans (by decide), h2.2.2.2.1.trans (by decide), h1.2.2.2.2.2⟩
